import Mathlib

/-!
Verification of the J-tech License-server LED-firmware core against its
natural-language specification.

The development shallowly embeds the C sources:
* `src/firmware/templates/stm32f407_template.c` — `main`, `WS2812_Send`, `delay_ms`
* `src/firmware/templates/nuvoton_m051_template.c` — `main`, `delay_ms`
* `src/firmware/templates/pic18f4550_template.c` — `main`, `delay_ms`
* `src/uploaders/verification/hash_routine.c` — `main` (SHA-256 and the serial
  primitives are only declared there; they are modelled from the spec below).

Machine integers are modelled as `Nat` (all values involved stay inside their
C types' ranges; where a claim depends on byte-ness a `< 256` hypothesis is
taken). GPIO activity is modelled as explicit event traces.
-/

namespace LedFirmware

/-! ## GPIO line model -/

/-- A write to the single LED GPIO line: `GPIO_SetBits` drives it HIGH,
`GPIO_ResetBits` drives it LOW (stm32f407_template.c lines 57/59/63/65). -/
inductive GpioEvent where
  | setBits
  | resetBits
deriving DecidableEq, Repr

/-- Level of the GPIO line. -/
inductive LineLevel where
  | low
  | high
deriving DecidableEq, Repr

/-- Effect of one GPIO write on the line level. -/
def applyEvent (_s : LineLevel) (e : GpioEvent) : LineLevel :=
  match e with
  | .setBits => .high
  | .resetBits => .low

/-- Line level after a sequence of GPIO writes, starting from `s`. -/
def applyEvents (s : LineLevel) (es : List GpioEvent) : LineLevel :=
  es.foldl applyEvent s

/-! ## The protocol encoder `WS2812_Send` (stm32f407_template.c lines 49-70)

```c
void WS2812_Send(uint8_t *pData, uint16_t Len) {
    for (uint16_t i = 0; i < Len; i++) {
        uint8_t byte = pData[i];
        for (uint8_t bit = 0; bit < 8; bit++) {
            if (byte & (1 << (7 - bit))) {
                GPIO_SetBits(LED_PORT, LED_PIN);   // wait ~0.8us
                GPIO_ResetBits(LED_PORT, LED_PIN); // wait ~0.45us
            } else {
                GPIO_SetBits(LED_PORT, LED_PIN);   // wait ~0.4us
                GPIO_ResetBits(LED_PORT, LED_PIN); // wait ~0.85us
            }
        }
    }
}
```

The buffer is modelled as the list of the `Len` bytes read; each emitted bit
becomes a `Pulse` whose HIGH/LOW widths (in nanoseconds) are the ones the two
branches specify in their timing comments (the only duration information in
the source). -/

/-- One bit-pulse on the wire: the line is driven HIGH for `highNs`
nanoseconds, then LOW for `lowNs` nanoseconds. -/
structure Pulse where
  highNs : Nat
  lowNs : Nat
deriving DecidableEq, Repr

/-- The pulse emitted by the `if` branch of `WS2812_Send` for a 1 bit:
HIGH ~0.8 µs then LOW ~0.45 µs. -/
def onePulse : Pulse := ⟨800, 450⟩

/-- The pulse emitted by the `else` branch of `WS2812_Send` for a 0 bit:
HIGH ~0.4 µs then LOW ~0.85 µs. -/
def zeroPulse : Pulse := ⟨400, 850⟩

/-- The test `byte & (1 << (7 - bit))` of the inner loop, as a Bool. -/
def bitTest (byte bit : Nat) : Bool :=
  byte &&& (1 <<< (7 - bit)) != 0

/-- The eight bit tests of one byte in the order of the inner loop
(`bit = 0 .. 7`, i.e. most significant bit first). -/
def byteBits (byte : Nat) : List Bool :=
  (List.range 8).map (fun bit => bitTest byte bit)

/-- The sequence of pulses emitted by `WS2812_Send` on a buffer. -/
def WS2812_Send_pulses (pData : List Nat) : List Pulse :=
  pData.flatMap (fun byte => (byteBits byte).map (fun b => if b then onePulse else zeroPulse))

/-- The sequence of GPIO writes performed by `WS2812_Send` on a buffer:
both branches do `GPIO_SetBits` then `GPIO_ResetBits`, once per bit. -/
def WS2812_Send_events (pData : List Nat) : List GpioEvent :=
  pData.flatMap
    (fun byte => (byteBits byte).flatMap (fun _ => [GpioEvent.setBits, GpioEvent.resetBits]))

/-- The input bit the claims talk about: bit `7 - i % 8` (MSB first) of byte
`i / 8` of the buffer. Stated via `Nat.testBit`, independently of the
encoder's mask test. -/
def inputBit (pData : List Nat) (i : Nat) : Bool :=
  Nat.testBit (pData.getD (i / 8) 0) (7 - i % 8)

/-! ## A reference pulse-width decoder (spec section 8, round-trip property)

A pulse is classified as a 1 bit exactly when its HIGH interval is longer
than its LOW interval; eight consecutive pulses are reassembled into one
byte, MSB first. -/

/-- Classify one pulse by its measured widths: long-HIGH-short-LOW is a 1. -/
def decodePulse (p : Pulse) : Bool :=
  decide (p.lowNs < p.highNs)

/-- Reassemble a byte from its eight bits, MSB first. -/
def bitsToByte (bits : List Bool) : Nat :=
  bits.foldl (fun acc b => 2 * acc + b.toNat) 0

/-- The reference decoder: consume the pulse train eight pulses at a time. -/
def decodePulses : List Pulse → List Nat
  | p0 :: p1 :: p2 :: p3 :: p4 :: p5 :: p6 :: p7 :: rest =>
      bitsToByte [decodePulse p0, decodePulse p1, decodePulse p2, decodePulse p3,
                  decodePulse p4, decodePulse p5, decodePulse p6, decodePulse p7]
        :: decodePulses rest
  | _ => []

/-! ## Pattern data (the `pattern_data.h` contract, spec section 6)

The templates consume compile-time tables `FRAME_COUNT`, `LED_COUNT`
(`NUM_LEDS`), `frame_durations[frame]` and `frames[frame][led*3 + channel]`. -/

/-- The compile-time pattern tables bound into a firmware template. -/
structure PatternData where
  ledCount : Nat
  frames : List (List Nat)
  frameDurations : List Nat
deriving DecidableEq, Repr

/-- `FRAME_COUNT` of a pattern-data header. -/
def PatternData.frameCount (pd : PatternData) : Nat := pd.frames.length

/-! ## Main control loops of the three templates

Each iteration of a template's `for` loop is modelled as the list of the
observable actions it performs: a call to the protocol encoder (`send` with
the byte buffer passed) and/or a call to `delay_ms`. -/

/-- An observable action of a template's playback loop. -/
inductive LoopEvent where
  | send (buffer : List Nat)
  | delayMs (ms : Nat)
deriving DecidableEq, Repr

/-- One iteration of the STM32F407 playback loop (stm32f407_template.c
lines 34-44): `WS2812_Send((uint8_t*)frame_pixels, LED_COUNT * 3)` — the
encoder reads exactly `LED_COUNT * 3` bytes at `frames[frame_idx]` — then
`delay_ms(frame_durations[frame_idx])`. -/
def stm32_frame_iteration (pd : PatternData) (frame_idx : Nat) : List LoopEvent :=
  [LoopEvent.send ((pd.frames.getD frame_idx []).take (pd.ledCount * 3)),
   LoopEvent.delayMs (pd.frameDurations.getD frame_idx 0)]

/-- One iteration of the Nuvoton M051 playback loop (nuvoton_m051_template.c
lines 26-41): the inner `for (i = 0; i < LED_COUNT; i++)` body contains only
comments — the `WS2812_Send` call at line 36 is commented out — so the
iteration performs no encoder call, only `delay_ms(frame_duration)`. -/
def nuvoton_frame_iteration (pd : PatternData) (frame_idx : Nat) : List LoopEvent :=
  [LoopEvent.delayMs (pd.frameDurations.getD frame_idx 0)]

/-- One iteration of the PIC18F4550 playback loop (pic18f4550_template.c
lines 31-46): the inner loop body is likewise empty of code, so the iteration
performs no encoder call, only `delay_ms(frame_duration)`. -/
def pic_frame_iteration (pd : PatternData) (frame_idx : Nat) : List LoopEvent :=
  [LoopEvent.delayMs (pd.frameDurations.getD frame_idx 0)]

/-- A counted `for (frame_idx = start; frame_idx < FRAME_COUNT; frame_idx++)`
loop, unrolled over the `remaining` iterations it still has to perform
(`remaining = FRAME_COUNT - start`); `iter` is the loop body. This models the
`uint16_t` (STM32/Nuvoton) and `uint8_t` (PIC, faithful for
`FRAME_COUNT ≤ 255`) frame loops of the three templates. -/
def forLoopEvents (iter : Nat → List LoopEvent) (start : Nat) : Nat → List LoopEvent
  | 0 => []
  | remaining + 1 => iter start ++ forLoopEvents iter (start + 1) remaining

/-- One full pass of the STM32F407 playback loop over frames
`0 .. FRAME_COUNT - 1`. -/
def stm32_playback_pass (pd : PatternData) : List LoopEvent :=
  forLoopEvents (stm32_frame_iteration pd) 0 pd.frameCount

/-- One full pass of the Nuvoton M051 playback loop. -/
def nuvoton_playback_pass (pd : PatternData) : List LoopEvent :=
  forLoopEvents (nuvoton_frame_iteration pd) 0 pd.frameCount

/-- One full pass of the PIC18F4550 playback loop. -/
def pic_playback_pass (pd : PatternData) : List LoopEvent :=
  forLoopEvents (pic_frame_iteration pd) 0 pd.frameCount

/-- The actions of the first `n` passes of the STM32F407 `while (1)` loop
(the loop runs forever; `n` is the prefix length observed). -/
def stm32_main_events (pd : PatternData) : Nat → List LoopEvent
  | 0 => []
  | n + 1 => stm32_main_events pd n ++ stm32_playback_pass pd

/-! ## `delay_ms` and inter-transmission gaps

`delay_ms(ms)` (stm32f407_template.c lines 72-78) busy-waits `ms` iterations
of a 1 ms inner loop, performing no GPIO writes; its duration is `1000 * ms`
microseconds. The gap between two consecutive encoder calls in a trace is the
total delay time between them. -/

/-- Duration of `delay_ms ms` in microseconds. -/
def delay_ms_duration_us (ms : Nat) : Nat := 1000 * ms

/-- Accumulate delay time after a send until the next send; emit the
accumulated gap at each subsequent send. -/
def sendGapsAux (acc : Nat) : List LoopEvent → List Nat
  | [] => []
  | LoopEvent.delayMs ms :: rest => sendGapsAux (acc + delay_ms_duration_us ms) rest
  | LoopEvent.send _ :: rest => acc :: sendGapsAux 0 rest

/-- The list of gaps (in microseconds of accumulated `delay_ms` time) between
each pair of consecutive encoder calls in a trace. -/
def sendGaps : List LoopEvent → List Nat
  | [] => []
  | LoopEvent.send _ :: rest => sendGapsAux 0 rest
  | LoopEvent.delayMs _ :: rest => sendGaps rest

/-! ## INIT phases of the three templates -/

/-- An action of a template's initialization code, before the `while (1)`
loop is entered. -/
inductive InitEvent where
  | sysInit
  | enableClock
  | configureOutput
  | driveLow
deriving DecidableEq, Repr

/-- STM32F407 INIT (stm32f407_template.c lines 19-31): `SystemInit()`,
`RCC_AHB1PeriphClockCmd(..., ENABLE)`, `GPIO_Init` with
`GPIO_Mode_OUT`. No write to the line itself occurs before the loop. -/
def stm32_init_events : List InitEvent :=
  [InitEvent.sysInit, InitEvent.enableClock, InitEvent.configureOutput]

/-- Nuvoton M051 INIT (nuvoton_m051_template.c lines 16-22): `SYS_Init()`,
`GPIO_SetMode(LED_PORT, LED_PIN, GPIO_PMD_OUTPUT)`, then
`GPIO_CLR(LED_PORT, LED_PIN)` driving the line LOW. -/
def nuvoton_init_events : List InitEvent :=
  [InitEvent.sysInit, InitEvent.configureOutput, InitEvent.driveLow]

/-- PIC18F4550 INIT (pic18f4550_template.c lines 22-28): `OSCCON = 112`,
`LED_TRIS = 0` (output), then `LED_PORT = 0` driving the line LOW. -/
def pic_init_events : List InitEvent :=
  [InitEvent.sysInit, InitEvent.configureOutput, InitEvent.driveLow]

/-- Effect of one INIT action on the LED line level: only `driveLow` writes
the line; the other actions leave it at its previous (reset) level. -/
def applyInitEvent (s : LineLevel) (e : InitEvent) : LineLevel :=
  match e with
  | .driveLow => .low
  | _ => s

/-- Line level after an INIT sequence, starting from reset level `s`. -/
def lineAfterInit (s : LineLevel) (es : List InitEvent) : LineLevel :=
  es.foldl applyInitEvent s

/-! ## Pattern Model and Frame Table Emitter (spec sections 3 and 4.1)

No emitter source is under `src/`; the definitions of this section are
modelled from the spec. -/

/-- A pixel: three 8-bit channel values. -/
structure Pixel where
  r : Nat
  g : Nat
  b : Nat
deriving DecidableEq, Repr

/-- A frame: an ordered sequence of pixels plus a display duration in
milliseconds. -/
structure Frame where
  pixels : List Pixel
  durationMs : Nat
deriving DecidableEq, Repr

/-- A pattern: an ordered sequence of frames plus the LED count it was
authored for. -/
structure Pattern where
  ledCount : Nat
  frames : List Frame
deriving DecidableEq, Repr

/-- One pixel in wire channel order (G, R, B for this LED family, spec
section 3). -/
def Pixel.wireBytes (px : Pixel) : List Nat := [px.g, px.r, px.b]

/-- Modelled from the spec: the Frame Table Emitter (spec section 4.1; no
emitter source is under `src/`). Given a Pattern it produces the compile-time
tables — `LED_COUNT`, per-frame pixel rows of `LED_COUNT * 3` bytes in wire
order, and the duration table — or rejects the Pattern (`none`), producing no
data section at all, when the Pattern is empty or some frame's pixel count
differs from `LED_COUNT`. -/
def emitFrameTable (p : Pattern) : Option PatternData :=
  if p.frames.isEmpty then none
  else if p.frames.all (fun f => f.pixels.length == p.ledCount) then
    some { ledCount := p.ledCount,
           frames := p.frames.map (fun f => f.pixels.flatMap Pixel.wireBytes),
           frameDurations := p.frames.map Frame.durationMs }
  else none

/-- The (buffer, duration) pair of each frame of a pass, in loop order. -/
def framePairs (pd : PatternData) : List (List Nat × Nat) :=
  (List.range pd.frameCount).map (fun i =>
    ((pd.frames.getD i []).take (pd.ledCount * 3), pd.frameDurations.getD i 0))

/-- The send/delay alternation generated by a list of (buffer, duration)
pairs. -/
def altEvents (L : List (List Nat × Nat)) : List LoopEvent :=
  L.flatMap (fun p => [LoopEvent.send p.1, LoopEvent.delayMs p.2])

/-! ## Verification Hasher (C5, C6)

`main` of `src/uploaders/verification/hash_routine.c` computes
`sha256_hash(firmware_data, firmware_size, hash)` into a 32-byte array and
then emits `serial_print("FIRMWARE_HASH:")`, `serial_print_hex(hash, 32)`,
`serial_print("\n")`. The bodies of `sha256_hash`, `serial_print` and
`serial_print_hex` are not under `src/` (only declared, lines 12-17); they
are modelled from the spec below. -/

/-- Truncation to a 32-bit word. -/
def w32 (n : Nat) : Nat := n % 4294967296

/-- 32-bit right rotation. -/
def rotr32 (x n : Nat) : Nat := w32 ((x >>> n) ||| (x <<< (32 - n)))

/-- 32-bit bitwise complement. -/
def not32 (x : Nat) : Nat := x ^^^ 4294967295

/-- The SHA-256 `Ch` function. -/
def sha256Ch (x y z : Nat) : Nat := (x &&& y) ^^^ (not32 x &&& z)

/-- The SHA-256 `Maj` function. -/
def sha256Maj (x y z : Nat) : Nat := (x &&& y) ^^^ (x &&& z) ^^^ (y &&& z)

/-- The SHA-256 `Σ0` function. -/
def bigSigma0 (x : Nat) : Nat := rotr32 x 2 ^^^ rotr32 x 13 ^^^ rotr32 x 22

/-- The SHA-256 `Σ1` function. -/
def bigSigma1 (x : Nat) : Nat := rotr32 x 6 ^^^ rotr32 x 11 ^^^ rotr32 x 25

/-- The SHA-256 `σ0` function. -/
def smallSigma0 (x : Nat) : Nat := rotr32 x 7 ^^^ rotr32 x 18 ^^^ (x >>> 3)

/-- The SHA-256 `σ1` function. -/
def smallSigma1 (x : Nat) : Nat := rotr32 x 17 ^^^ rotr32 x 19 ^^^ (x >>> 10)

/-- The 64 SHA-256 round constants. -/
def sha256K : List Nat :=
  [1116352408, 1899447441, 3049323471, 3921009573, 961987163, 1508970993,
   2453635748, 2870763221, 3624381080, 310598401, 607225278, 1426881987,
   1925078388, 2162078206, 2614888103, 3248222580, 3835390401, 4022224774,
   264347078, 604807628, 770255983, 1249150122, 1555081692, 1996064986,
   2554220882, 2821834349, 2952996808, 3210313671, 3336571891, 3584528711,
   113926993, 338241895, 666307205, 773529912, 1294757372, 1396182291,
   1695183700, 1986661051, 2177026350, 2456956037, 2730485921, 2820302411,
   3259730800, 3345764771, 3516065817, 3600352804, 4094571909, 275423344,
   430227734, 506948616, 659060556, 883997877, 958139571, 1322822218,
   1537002063, 1747873779, 1955562222, 2024104815, 2227730452, 2361852424,
   2428436474, 2756734187, 3204031479, 3329325298]

/-- The SHA-256 working/chaining state (eight 32-bit words). -/
structure Hash8 where
  w0 : Nat
  w1 : Nat
  w2 : Nat
  w3 : Nat
  w4 : Nat
  w5 : Nat
  w6 : Nat
  w7 : Nat
deriving DecidableEq, Repr

/-- The SHA-256 initial hash value. -/
def sha256Init : Hash8 :=
  ⟨1779033703, 3144134277, 1013904242, 2773480762,
   1359893119, 2600822924, 528734635, 1541459225⟩

/-- A big-endian 32-bit word from four bytes. -/
def beWord (b0 b1 b2 b3 : Nat) : Nat :=
  (b0 <<< 24) ||| (b1 <<< 16) ||| (b2 <<< 8) ||| b3

/-- The 16 message words of one 64-byte block, big-endian. -/
def blockWords (block : List Nat) : List Nat :=
  (List.range 16).map (fun i =>
    beWord (block.getD (4 * i) 0) (block.getD (4 * i + 1) 0)
      (block.getD (4 * i + 2) 0) (block.getD (4 * i + 3) 0))

/-- Extend the message schedule by `n` further words. -/
def extendSchedule : Nat → List Nat → List Nat
  | 0, W => W
  | n + 1, W =>
      extendSchedule n (W ++ [w32 (smallSigma1 (W.getD (W.length - 2) 0)
        + W.getD (W.length - 7) 0
        + smallSigma0 (W.getD (W.length - 15) 0)
        + W.getD (W.length - 16) 0)])

/-- The 64-word message schedule of one block. -/
def messageSchedule (block : List Nat) : List Nat :=
  extendSchedule 48 (blockWords block)

/-- One SHA-256 round: `kw` is the round constant paired with the schedule
word. -/
def sha256Round (st : Hash8) (kw : Nat × Nat) : Hash8 :=
  let t1 := w32 (st.w7 + bigSigma1 st.w4 + sha256Ch st.w4 st.w5 st.w6 + kw.1 + kw.2)
  let t2 := w32 (bigSigma0 st.w0 + sha256Maj st.w0 st.w1 st.w2)
  ⟨w32 (t1 + t2), st.w0, st.w1, st.w2, w32 (st.w3 + t1), st.w4, st.w5, st.w6⟩

/-- Compression of one 64-byte block into the chaining state. -/
def sha256Compress (st : Hash8) (block : List Nat) : Hash8 :=
  let f := ((sha256K.zip (messageSchedule block))).foldl sha256Round st
  ⟨w32 (st.w0 + f.w0), w32 (st.w1 + f.w1), w32 (st.w2 + f.w2), w32 (st.w3 + f.w3),
   w32 (st.w4 + f.w4), w32 (st.w5 + f.w5), w32 (st.w6 + f.w6), w32 (st.w7 + f.w7)⟩

/-- A 64-bit value as eight big-endian bytes. -/
def beBytes8 (n : Nat) : List Nat :=
  [(n >>> 56) % 256, (n >>> 48) % 256, (n >>> 40) % 256, (n >>> 32) % 256,
   (n >>> 24) % 256, (n >>> 16) % 256, (n >>> 8) % 256, n % 256]

/-- A 32-bit word as four big-endian bytes. -/
def beBytes4 (n : Nat) : List Nat :=
  [(n >>> 24) % 256, (n >>> 16) % 256, (n >>> 8) % 256, n % 256]

/-- SHA-256 padding: append the `128` marker byte, then the least number of
zero bytes making the length ≡ 56 (mod 64), then the bit length as a 64-bit
big-endian value (the padded length is always a multiple of 64: the zero
count is `(119 - len % 64) % 64`, which is `55 - len % 64` for residues up to
55 and `120 - len % 64` for residues 56..63). -/
def padMessage (msg : List Nat) : List Nat :=
  msg ++ [128] ++ List.replicate ((119 - msg.length % 64) % 64) 0
    ++ beBytes8 (8 * msg.length)

/-- Split a byte list into 64-byte blocks. -/
def toBlocks (l : List Nat) : List (List Nat) :=
  if h : l.isEmpty then [] else l.take 64 :: toBlocks (l.drop 64)
termination_by l.length
decreasing_by
  simp only [List.length_drop]
  rcases l with _ | ⟨x, xs⟩
  · simp at h
  · simp only [List.length_cons]
    omega

/-- Modelled from the spec: `sha256_hash` (declared at hash_routine.c line
12, body not under `src/`): the standard SHA-256 digest, 32 bytes, of the
input. -/
def sha256_hash (data : List Nat) : List Nat :=
  let f := (toBlocks (padMessage data)).foldl sha256Compress sha256Init
  [f.w0, f.w1, f.w2, f.w3, f.w4, f.w5, f.w6, f.w7].flatMap beBytes4

/-- The sixteen lowercase hexadecimal digits. -/
def hexChars : List Char :=
  "0123456789abcdef".data

/-- One hex digit, lowercase. -/
def hexDigit (n : Nat) : Char := hexChars.getD n '0'

/-- One byte as two lowercase hex characters. -/
def byteToHex (b : Nat) : List Char := [hexDigit (b / 16), hexDigit (b % 16)]

/-- Modelled from the spec: `serial_print_hex(data, len)` (declared at
hash_routine.c line 17, body not under `src/`) writes each byte as two
lowercase hex characters. -/
def serial_print_hex_output (data : List Nat) : List Char :=
  data.flatMap byteToHex

/-- The complete serial trace of hash_routine.c `main` on a firmware image:
the concatenation of its three `serial_print` emissions, in order. -/
def hashRoutineOutput (firmware : List Nat) : List Char :=
  "FIRMWARE_HASH:".data ++ serial_print_hex_output (sha256_hash firmware) ++ "\n".data

/-- Modelled from the spec: the bound on emission retries (spec section 4.4
requires "a bounded number of times"; no retry code is under `src/`). -/
def RETRY_LIMIT : Nat := 3

/-- Outcome of the hasher's boot-time emission attempt. -/
structure BootResult where
  emitted : Bool
  attempts : Nat
  reachedPlayback : Bool
deriving DecidableEq, Repr

/-- Modelled from the spec: try to emit over the serial channel, retrying
while the channel (given by its readiness at each attempt) is not ready, for
at most `budget` attempts; returns whether emission happened and the number
of attempts made. -/
def tryEmit (ready : Nat → Bool) : Nat → Nat → Bool × Nat
  | attemptsMade, 0 => (false, attemptsMade)
  | attemptsMade, budget + 1 =>
      if ready attemptsMade then (true, attemptsMade + 1)
      else tryEmit ready (attemptsMade + 1) budget

/-- Modelled from the spec: the hasher's boot behaviour (spec section 4.4) —
attempt emission at most `RETRY_LIMIT` times, then proceed to PLAYBACK
whether or not emission succeeded. -/
def hasherBoot (ready : Nat → Bool) : BootResult :=
  let r := tryEmit ready 0 RETRY_LIMIT
  { emitted := r.1, attempts := r.2, reachedPlayback := true }

/-! ### Basic lemmas about the encoder -/

theorem bitTest_eq_testBit (byte bit : Nat) :
    bitTest byte bit = Nat.testBit byte (7 - bit) := by
  unfold bitTest
  rcases h : Nat.testBit byte (7 - bit) with _ | _
  · have : byte &&& 2 ^ (7 - bit) = 0 := by
      rw [Nat.and_two_pow, h]
      simp
    simp [Nat.shiftLeft_eq, this]
  · have h2 : byte &&& 2 ^ (7 - bit) = 2 ^ (7 - bit) := by
      rw [Nat.and_two_pow, h]
      simp
    simp only [Nat.shiftLeft_eq, one_mul, h2, bne_iff_ne, ne_eq]
    exact pow_ne_zero _ (by norm_num)

theorem length_WS2812_Send_pulses (pData : List Nat) :
    (WS2812_Send_pulses pData).length = 8 * pData.length := by
  induction pData with
  | nil => simp [WS2812_Send_pulses]
  | cons b rest ih =>
      simp [WS2812_Send_pulses, byteBits] at ih ⊢
      omega

theorem byteBits_getElem? (byte i : Nat) (hi : i < 8) :
    (byteBits byte)[i]? = some (Nat.testBit byte (7 - i)) := by
  unfold byteBits
  rw [List.getElem?_map, List.getElem?_range hi]
  simp [bitTest_eq_testBit]

theorem WS2812_Send_pulses_getElem? (pData : List Nat) (i : Nat) (hi : i < 8 * pData.length) :
    (WS2812_Send_pulses pData)[i]? =
      some (if inputBit pData i then onePulse else zeroPulse) := by
  induction pData generalizing i with
  | nil => simp at hi
  | cons b rest ih =>
      have hpulses : WS2812_Send_pulses (b :: rest)
          = (byteBits b).map (fun x => if x then onePulse else zeroPulse)
            ++ WS2812_Send_pulses rest := by
        simp [WS2812_Send_pulses]
      have hlen : ((byteBits b).map (fun x => if x then onePulse else zeroPulse)).length = 8 := by
        simp [byteBits]
      rw [hpulses, List.getElem?_append, hlen]
      by_cases h8 : i < 8
      · rw [if_pos h8, List.getElem?_map, byteBits_getElem? b i h8]
        have h1 : i / 8 = 0 := Nat.div_eq_of_lt h8
        have h2 : i % 8 = i := Nat.mod_eq_of_lt h8
        simp [inputBit, h1, h2]
      · rw [if_neg h8]
        have hlt : i - 8 < 8 * rest.length := by
          simp only [List.length_cons] at hi
          omega
        rw [ih (i - 8) hlt]
        have hdiv : i / 8 = (i - 8) / 8 + 1 := by omega
        have hmod : i % 8 = (i - 8) % 8 := by omega
        simp [inputBit, hdiv, hmod]

/-! ### Line-level behaviour of the encoder -/

theorem applyEvents_append (s : LineLevel) (es es' : List GpioEvent) :
    applyEvents s (es ++ es') = applyEvents (applyEvents s es) es' :=
  List.foldl_append ..

theorem flatMap_const_eq_join_replicate {α β : Type} (l : List α) (c : List β) :
    l.flatMap (fun _ => c) = (List.replicate l.length c).flatten := by
  induction l with
  | nil => simp
  | cons x xs ih => simp [ih, List.replicate_succ]

theorem applyEvents_flatMap_pair {α : Type} (l : List α) (s : LineLevel) :
    applyEvents s (l.flatMap (fun _ => [GpioEvent.setBits, GpioEvent.resetBits]))
      = if l.isEmpty then s else LineLevel.low := by
  induction l generalizing s with
  | nil => simp [applyEvents]
  | cons x xs ih =>
      simp only [List.flatMap_cons, List.isEmpty_cons]
      rw [applyEvents_append]
      rcases xs with _ | ⟨y, ys⟩
      · simp [applyEvents, applyEvent]
      · rw [ih]
        simp

theorem WS2812_Send_events_cons (b : Nat) (rest : List Nat) :
    WS2812_Send_events (b :: rest)
      = (byteBits b).flatMap (fun _ => [GpioEvent.setBits, GpioEvent.resetBits])
        ++ WS2812_Send_events rest := by
  simp [WS2812_Send_events]

theorem WS2812_Send_events_ends_low (pData : List Nat) (h : pData ≠ []) (s : LineLevel) :
    applyEvents s (WS2812_Send_events pData) = LineLevel.low := by
  induction pData generalizing s with
  | nil => exact absurd rfl h
  | cons b rest ih =>
      rw [WS2812_Send_events_cons, applyEvents_append, applyEvents_flatMap_pair]
      have hb : (byteBits b).isEmpty = false := by simp [byteBits]
      rw [hb]
      rcases rest with _ | ⟨c, cs⟩
      · simp [WS2812_Send_events, applyEvents]
      · exact ih (by simp) _

theorem WS2812_Send_events_structure (pData : List Nat) :
    WS2812_Send_events pData
      = (List.replicate (8 * pData.length) [GpioEvent.setBits, GpioEvent.resetBits]).flatten := by
  induction pData with
  | nil => simp [WS2812_Send_events]
  | cons b rest ih =>
      rw [WS2812_Send_events_cons, ih, flatMap_const_eq_join_replicate]
      have hlen : (byteBits b).length = 8 := by simp [byteBits]
      rw [hlen]
      have : 8 * (b :: rest).length = 8 + 8 * rest.length := by
        simp [List.length_cons]
        ring
      rw [this, List.replicate_add, List.flatten_append]

/-! ## Structure of the playback loops -/

theorem forLoopEvents_eq_flatMap (iter : Nat → List LoopEvent) (start r : Nat) :
    forLoopEvents iter start r = (List.range' start r).flatMap iter := by
  induction r generalizing start with
  | zero => simp [forLoopEvents]
  | succ r ih =>
      rw [forLoopEvents, List.range'_succ, List.flatMap_cons, ih]

theorem stm32_playback_pass_eq (pd : PatternData) :
    stm32_playback_pass pd
      = (List.range pd.frameCount).flatMap (stm32_frame_iteration pd) := by
  rw [stm32_playback_pass, forLoopEvents_eq_flatMap, ← List.range_eq_range']

theorem stm32_main_events_eq (pd : PatternData) (n : Nat) :
    stm32_main_events pd n = (List.replicate n (stm32_playback_pass pd)).flatten := by
  induction n with
  | zero => rfl
  | succ n ih =>
      rw [stm32_main_events, ih, List.replicate_succ', List.flatten_append]
      simp

theorem stm32_frame_iteration_no_take (pd : PatternData)
    (hrows : ∀ f ∈ pd.frames, f.length = pd.ledCount * 3)
    (i : Nat) (hi : i < pd.frameCount) :
    stm32_frame_iteration pd i
      = [LoopEvent.send (pd.frames.getD i []),
         LoopEvent.delayMs (pd.frameDurations.getD i 0)] := by
  unfold stm32_frame_iteration
  rw [List.getD_eq_getElem pd.frames [] hi,
    ← hrows (pd.frames[i]) (List.getElem_mem hi), List.take_length]

theorem stm32_playback_pass_spec (pd : PatternData)
    (hrows : ∀ f ∈ pd.frames, f.length = pd.ledCount * 3) :
    stm32_playback_pass pd
      = (List.range pd.frameCount).flatMap (fun i =>
          [LoopEvent.send (pd.frames.getD i []),
           LoopEvent.delayMs (pd.frameDurations.getD i 0)]) := by
  rw [stm32_playback_pass_eq, List.flatMap_def, List.flatMap_def]
  congr 1
  apply List.map_congr_left
  intro i hi
  exact stm32_frame_iteration_no_take pd hrows i (List.mem_range.mp hi)

/-- **C3** (amended): in the STM32F407 template the PLAYBACK loop, pass after
pass, performs for each frame index `i` in order `0 .. FRAME_COUNT - 1` one
encoder call with frame `i`'s pixel buffer followed by a `delay_ms` of
`frame_durations[i]`, wrapping to 0 forever; in the Nuvoton M051 and
PIC18F4550 templates each iteration performs only the delay — their encoder
call is elided (commented out / an empty stub loop). -/
theorem playback_loop_structure (pd : PatternData) (n : Nat)
    (hrows : ∀ f ∈ pd.frames, f.length = pd.ledCount * 3) :
    stm32_main_events pd n
      = (List.replicate n ((List.range pd.frameCount).flatMap (fun i =>
          [LoopEvent.send (pd.frames.getD i []),
           LoopEvent.delayMs (pd.frameDurations.getD i 0)]))).flatten
    ∧ nuvoton_playback_pass pd
        = (List.range pd.frameCount).flatMap (fun i =>
            [LoopEvent.delayMs (pd.frameDurations.getD i 0)])
    ∧ pic_playback_pass pd
        = (List.range pd.frameCount).flatMap (fun i =>
            [LoopEvent.delayMs (pd.frameDurations.getD i 0)]) := by
  refine ⟨?_, ?_, ?_⟩
  · rw [stm32_main_events_eq, stm32_playback_pass_spec pd hrows]
  · rw [nuvoton_playback_pass, forLoopEvents_eq_flatMap, ← List.range_eq_range']
    rfl
  · rw [pic_playback_pass, forLoopEvents_eq_flatMap, ← List.range_eq_range']
    rfl

/-- Witness for `playback_loop_structure` at a concrete one-frame pattern. -/
theorem playback_loop_structure_witness :
    nuvoton_playback_pass (PatternData.mk 1 [[255, 0, 0]] [500])
      = (List.range (PatternData.mk 1 [[255, 0, 0]] [500]).frameCount).flatMap (fun i =>
          [LoopEvent.delayMs ((PatternData.mk 1 [[255, 0, 0]] [500]).frameDurations.getD i 0)]) :=
  (playback_loop_structure (PatternData.mk 1 [[255, 0, 0]] [500]) 1 (by decide)).2.1

/-- **C3** counterexample: at a concrete one-frame pattern, a full pass of the
Nuvoton M051 PLAYBACK loop is just the delay — it contains no call to the
Protocol Encoder with the frame's pixel buffer, contrary to the claim. -/
theorem nuvoton_pass_has_no_send :
    nuvoton_playback_pass (PatternData.mk 1 [[255, 0, 0]] [500]) = [LoopEvent.delayMs 500]
    ∧ LoopEvent.send [255, 0, 0] ∉ nuvoton_playback_pass (PatternData.mk 1 [[255, 0, 0]] [500]) := by
  decide

/-! ## Inter-transmission gaps in the STM32F407 main loop (C2) -/

theorem altEvents_append (L1 L2 : List (List Nat × Nat)) :
    altEvents (L1 ++ L2) = altEvents L1 ++ altEvents L2 :=
  List.flatMap_append ..

theorem stm32_pass_altEvents (pd : PatternData) :
    stm32_playback_pass pd = altEvents (framePairs pd) := by
  rw [stm32_playback_pass_eq, altEvents, framePairs, List.flatMap_map]
  rfl

theorem stm32_main_altEvents (pd : PatternData) (n : Nat) :
    stm32_main_events pd n = altEvents ((List.replicate n (framePairs pd)).flatten) := by
  induction n with
  | zero => rfl
  | succ n ih =>
      rw [stm32_main_events, ih, stm32_pass_altEvents, List.replicate_succ',
        List.flatten_append, altEvents_append]
      simp

theorem sendGapsAux_altEvents_cons (p : List Nat × Nat) (rest : List (List Nat × Nat))
    (acc : Nat) :
    sendGapsAux acc (altEvents (p :: rest))
      = acc :: sendGapsAux (delay_ms_duration_us p.2) (altEvents rest) := by
  simp [altEvents, sendGapsAux, List.flatMap_def]

theorem mem_sendGapsAux_altEvents (L : List (List Nat × Nat)) (acc g : Nat)
    (hg : g ∈ sendGapsAux acc (altEvents L)) :
    g = acc ∨ ∃ p ∈ L, g = delay_ms_duration_us p.2 := by
  induction L generalizing acc with
  | nil => simp [altEvents, sendGapsAux] at hg
  | cons p rest ih =>
      rw [sendGapsAux_altEvents_cons] at hg
      rcases List.mem_cons.mp hg with h1 | h2
      · exact Or.inl h1
      · rcases ih _ h2 with h3 | ⟨q, hq, hgq⟩
        · exact Or.inr ⟨p, List.mem_cons_self .., h3⟩
        · exact Or.inr ⟨q, List.mem_cons_of_mem _ hq, hgq⟩

theorem mem_sendGaps_altEvents (L : List (List Nat × Nat)) (g : Nat)
    (hg : g ∈ sendGaps (altEvents L)) :
    ∃ p ∈ L, g = delay_ms_duration_us p.2 := by
  cases L with
  | nil => simp [altEvents, sendGaps] at hg
  | cons p rest =>
      have hrw : sendGaps (altEvents (p :: rest))
          = sendGapsAux (delay_ms_duration_us p.2) (altEvents rest) := by
        simp [altEvents, sendGaps, sendGapsAux, List.flatMap_def]
      rw [hrw] at hg
      rcases mem_sendGapsAux_altEvents rest _ g hg with h1 | ⟨q, hq, hgq⟩
      · exact ⟨p, List.mem_cons_self .., h1⟩
      · exact ⟨q, List.mem_cons_of_mem _ hq, hgq⟩

theorem mem_of_mem_flatten_replicate {α : Type} {n : Nat} {P : List α} {x : α}
    (hx : x ∈ (List.replicate n P).flatten) : x ∈ P := by
  rcases List.mem_flatten.mp hx with ⟨l, hl, hxl⟩
  rwa [List.eq_of_mem_replicate hl] at hxl

theorem send_mem_altEvents (L : List (List Nat × Nat)) (buf : List Nat)
    (h : LoopEvent.send buf ∈ altEvents L) :
    ∃ p ∈ L, buf = p.1 := by
  rcases List.mem_flatMap.mp h with ⟨p, hp, hmem⟩
  rcases List.mem_cons.mp hmem with h1 | h2
  · injection h1 with h1
    exact ⟨p, hp, h1⟩
  · simp at h2

/-- **C2**: in the STM32F407 main loop, between any two consecutive
`WS2812_Send` calls the line sees only `delay_ms` time — at least
`1000 * frame_durations[i] ≥ 1000` µs, hence ≥ 50 µs — and every transmitted
buffer is nonempty, so the line is LOW from the end of each transmission
until the next one begins (delays perform no GPIO writes). Hypotheses are
the pattern-validity invariants of the data model (spec section 3): at least
one LED, rows of exactly `LED_COUNT * 3` bytes, a duration entry per frame,
every duration a positive number of milliseconds. -/
theorem reset_gap_between_transmissions (pd : PatternData) (n : Nat)
    (hled : 1 ≤ pd.ledCount)
    (hrows : ∀ f ∈ pd.frames, f.length = pd.ledCount * 3)
    (hdlen : pd.frameDurations.length = pd.frames.length)
    (hdur : ∀ d ∈ pd.frameDurations, 1 ≤ d) :
    (∀ g ∈ sendGaps (stm32_main_events pd n), 50 ≤ g)
    ∧ (∀ buf, LoopEvent.send buf ∈ stm32_main_events pd n →
        ∀ s, applyEvents s (WS2812_Send_events buf) = LineLevel.low) := by
  constructor
  · intro g hg
    rw [stm32_main_altEvents] at hg
    rcases mem_sendGaps_altEvents _ g hg with ⟨p, hp, hgp⟩
    rcases List.mem_map.mp (mem_of_mem_flatten_replicate hp) with ⟨i, hi, hpi⟩
    have hilt : i < pd.frames.length := List.mem_range.mp hi
    have hdlt : i < pd.frameDurations.length := by omega
    have hp2 : p.2 = pd.frameDurations.getD i 0 := by rw [← hpi]
    have hmem : pd.frameDurations.getD i 0 ∈ pd.frameDurations := by
      rw [List.getD_eq_getElem _ _ hdlt]
      exact List.getElem_mem hdlt
    have h1 : 1 ≤ p.2 := hp2 ▸ hdur _ hmem
    rw [hgp]
    unfold delay_ms_duration_us
    omega
  · intro buf hbuf s
    rw [stm32_main_altEvents] at hbuf
    rcases send_mem_altEvents _ _ hbuf with ⟨p, hp, hbufp⟩
    rcases List.mem_map.mp (mem_of_mem_flatten_replicate hp) with ⟨i, hi, hpi⟩
    have hilt : i < pd.frames.length := List.mem_range.mp hi
    have hrowmem : pd.frames.getD i [] ∈ pd.frames := by
      rw [List.getD_eq_getElem _ _ hilt]
      exact List.getElem_mem hilt
    have hbuflen : 0 < buf.length := by
      rw [hbufp, ← hpi]
      simp only [List.length_take, hrows _ hrowmem]
      simp only [Nat.min_self]
      omega
    exact WS2812_Send_events_ends_low buf (List.length_pos.mp hbuflen) s

/-- Witness for `reset_gap_between_transmissions` at a concrete one-frame
pattern observed for two passes (the single gap is 500 000 µs). -/
theorem reset_gap_between_transmissions_witness :
    50 ≤ (sendGaps (stm32_main_events (PatternData.mk 1 [[255, 0, 0]] [500]) 2)).getD 0 0 :=
  (reset_gap_between_transmissions (PatternData.mk 1 [[255, 0, 0]] [500]) 2
      (by decide) (by decide) (by decide) (by decide)).1 _ (by decide)

/-! ## INIT behaviour (C7) -/

/-- **C7** (amended): all three templates configure the LED pin as an output
during INIT; the Nuvoton M051 and PIC18F4550 templates then drive the line
LOW, so they enter PLAYBACK with the line LOW from any reset level, but the
STM32F407 template performs no write to the line during INIT, leaving it at
its reset level. -/
theorem init_output_and_line_level (s : LineLevel) :
    (InitEvent.configureOutput ∈ stm32_init_events
      ∧ InitEvent.configureOutput ∈ nuvoton_init_events
      ∧ InitEvent.configureOutput ∈ pic_init_events)
    ∧ lineAfterInit s nuvoton_init_events = LineLevel.low
    ∧ lineAfterInit s pic_init_events = LineLevel.low
    ∧ lineAfterInit s stm32_init_events = s := by
  cases s <;> decide

/-- **C7** counterexample: started from a HIGH reset level, the STM32F407
INIT sequence leaves the line HIGH — it never drives it LOW (there is no
`driveLow` action in it), contrary to the claim. -/
theorem stm32_init_does_not_drive_low :
    InitEvent.driveLow ∉ stm32_init_events
    ∧ lineAfterInit LineLevel.high stm32_init_events ≠ LineLevel.low := by
  decide

/-! ## C1, C8, C9, C10: the encoder's pulse train -/

/-- **C1**: `WS2812_Send` on a buffer of `Len` bytes emits exactly `8 * Len`
bit-pulses, one per input bit MSB-first within each byte; the pulse at index
`i` is the "1"-encoding `onePulse` (long HIGH, short LOW) exactly when input
bit `i` is 1, and the "0"-encoding `zeroPulse` (short HIGH, long LOW) exactly
when it is 0. -/
theorem WS2812_Send_encodes_bits (pData : List Nat) (h : ∀ b ∈ pData, b < 256) :
    (WS2812_Send_pulses pData).length = 8 * pData.length
    ∧ onePulse.lowNs < onePulse.highNs
    ∧ zeroPulse.highNs < zeroPulse.lowNs
    ∧ ∀ i, i < 8 * pData.length →
        ((WS2812_Send_pulses pData).getD i zeroPulse = onePulse ↔ inputBit pData i = true)
        ∧ ((WS2812_Send_pulses pData).getD i zeroPulse = zeroPulse ↔ inputBit pData i = false) := by
  refine ⟨length_WS2812_Send_pulses pData, by decide, by decide, ?_⟩
  intro i hi
  rw [List.getD_eq_getElem?_getD, WS2812_Send_pulses_getElem? pData i hi]
  rcases hbit : inputBit pData i with _ | _ <;> simp [hbit] <;> decide

/-- Witness for `WS2812_Send_encodes_bits` at the buffer `[255, 0, 0]`
(spec section 8 scenario: 24 pulses for one red pixel). -/
theorem WS2812_Send_encodes_bits_witness :
    (WS2812_Send_pulses [255, 0, 0]).length = 8 * [255, 0, 0].length :=
  (WS2812_Send_encodes_bits [255, 0, 0] (by decide)).1

/-- **C8**: encoding the known mixed-bit 3-byte buffer `[165, 60, 15]`
and decoding the pulse train with the reference pulse-width decoder
reproduces the buffer exactly (and the train indeed mixes both encodings). -/
theorem encode_decode_roundtrip :
    decodePulses (WS2812_Send_pulses [165, 60, 15]) = [165, 60, 15]
    ∧ onePulse ∈ WS2812_Send_pulses [165, 60, 15]
    ∧ zeroPulse ∈ WS2812_Send_pulses [165, 60, 15] := by
  decide

/-- **C9** (amended): every bit-pulse of `WS2812_Send` consists of a
`setBits` (HIGH) followed by a `resetBits` (LOW), so after any call that
emits at least one pulse (`Len ≥ 1`) the GPIO line is LOW; a call with
`Len = 0` performs no writes and leaves the line unchanged. -/
theorem WS2812_Send_leaves_line_low (pData : List Nat) (h : pData ≠ []) (s : LineLevel) :
    WS2812_Send_events pData
        = (List.replicate (8 * pData.length) [GpioEvent.setBits, GpioEvent.resetBits]).flatten
    ∧ applyEvents s (WS2812_Send_events pData) = LineLevel.low :=
  ⟨WS2812_Send_events_structure pData, WS2812_Send_events_ends_low pData h s⟩

/-- Witness for `WS2812_Send_leaves_line_low` at the one-byte buffer `[255]`. -/
theorem WS2812_Send_leaves_line_low_witness :
    applyEvents LineLevel.high (WS2812_Send_events [255]) = LineLevel.low :=
  (WS2812_Send_leaves_line_low [255] (by decide) LineLevel.high).2

/-- **C9** counterexample: a complete call with `Len = 0` on a line that is
HIGH leaves it HIGH, so "after any complete call the line is LOW" fails. -/
theorem WS2812_Send_empty_leaves_high :
    applyEvents LineLevel.high (WS2812_Send_events []) = LineLevel.high
    ∧ applyEvents LineLevel.high (WS2812_Send_events []) ≠ LineLevel.low := by
  decide

/-- **C10**: `WS2812_Send` with `Len = 0` performs no GPIO writes and leaves
the line level unchanged. -/
theorem WS2812_Send_len_zero_no_events (s : LineLevel) :
    WS2812_Send_events [] = [] ∧ applyEvents s (WS2812_Send_events []) = s :=
  ⟨rfl, rfl⟩

/-! ## Frame Table Emitter: validation behaviour (C4) -/

theorem length_wireRow (pxs : List Pixel) :
    (pxs.flatMap Pixel.wireBytes).length = pxs.length * 3 := by
  induction pxs with
  | nil => simp
  | cons px rest ih =>
      simp [Pixel.wireBytes, ih]
      omega

theorem emitFrameTable_eq_none_iff (p : Pattern) :
    emitFrameTable p = none
      ↔ (p.frames = [] ∨ ∃ f ∈ p.frames, f.pixels.length ≠ p.ledCount) := by
  by_cases h1 : p.frames.isEmpty
  · have hfr : p.frames = [] := List.isEmpty_iff.mp h1
    simp [emitFrameTable, h1, hfr]
  · have hne : p.frames ≠ [] := by
      intro hc
      rw [hc] at h1
      exact h1 rfl
    by_cases h2 : p.frames.all (fun f => f.pixels.length == p.ledCount)
    · have hall : ∀ f ∈ p.frames, f.pixels.length = p.ledCount := by
        intro f hf
        exact beq_iff_eq.mp (List.all_eq_true.mp h2 f hf)
      simp only [emitFrameTable, h1, Bool.false_eq_true, if_false, h2, if_true,
        Bool.not_eq_true]
      constructor
      · intro hc
        exact absurd hc (by simp)
      · rintro (hc | ⟨f, hf, hfc⟩)
        · exact absurd hc hne
        · exact absurd (hall f hf) hfc
    · simp only [emitFrameTable, h1, Bool.false_eq_true, if_false, h2, Bool.not_eq_true]
      constructor
      · intro _
        right
        have hnot : ¬ ∀ f ∈ p.frames, (f.pixels.length == p.ledCount) = true := by
          intro hc
          exact h2 (List.all_eq_true.mpr hc)
        push_neg at hnot
        rcases hnot with ⟨f, hf, hfc⟩
        exact ⟨f, hf, fun he => hfc (beq_iff_eq.mpr he)⟩
      · intro _
        trivial

theorem emitFrameTable_some_shape (p : Pattern) (pd : PatternData)
    (h : emitFrameTable p = some pd) :
    pd.ledCount = p.ledCount
    ∧ pd.frames.length = p.frames.length
    ∧ pd.frameDurations.length = p.frames.length
    ∧ ∀ row ∈ pd.frames, row.length = p.ledCount * 3 := by
  unfold emitFrameTable at h
  by_cases h1 : p.frames.isEmpty
  · simp [h1] at h
  · by_cases h2 : p.frames.all (fun f => f.pixels.length == p.ledCount)
    · simp only [h1, Bool.false_eq_true, if_false, h2, if_true, Option.some_inj,
        Bool.not_eq_true] at h
      subst h
      refine ⟨rfl, by simp, by simp, ?_⟩
      intro row hrow
      rcases List.mem_map.mp hrow with ⟨f, hf, hrf⟩
      have hfl : f.pixels.length = p.ledCount :=
        beq_iff_eq.mp (List.all_eq_true.mp h2 f hf)
      rw [← hrf, length_wireRow, hfl]
    · simp [h1, h2] at h

/-! ### C5 and C6 theorems -/

theorem length_padMessage_mod (msg : List Nat) : (padMessage msg).length % 64 = 0 := by
  simp [padMessage, beBytes8]
  omega

theorem length_flatMap_beBytes4 (l : List Nat) : (l.flatMap beBytes4).length = 4 * l.length := by
  induction l with
  | nil => simp
  | cons x xs ih =>
      simp [beBytes4, ih]
      omega

theorem sha256_hash_length (data : List Nat) : (sha256_hash data).length = 32 := by
  simp [sha256_hash, beBytes4]

theorem mem_beBytes4_lt (x b : Nat) (hb : b ∈ beBytes4 x) : b < 256 := by
  simp [beBytes4] at hb
  rcases hb with h | h | h | h <;> subst h <;> omega

theorem sha256_hash_bytes_lt (data : List Nat) : ∀ b ∈ sha256_hash data, b < 256 := by
  intro b hb
  simp only [sha256_hash] at hb
  rcases List.mem_flatMap.mp hb with ⟨x, _, hbx⟩
  exact mem_beBytes4_lt x b hbx

theorem length_serial_print_hex (data : List Nat) :
    (serial_print_hex_output data).length = 2 * data.length := by
  induction data with
  | nil => simp [serial_print_hex_output]
  | cons x xs ih =>
      simp [serial_print_hex_output, byteToHex] at ih ⊢
      omega

theorem hexDigit_mem (n : Nat) : hexDigit n ∈ hexChars := by
  unfold hexDigit
  by_cases h : n < hexChars.length
  · rw [List.getD_eq_getElem _ _ h]
    exact List.getElem_mem h
  · rw [List.getD_eq_default _ _ (Nat.not_lt.mp h)]
    decide

theorem mem_serial_print_hex_mem_hexChars (data : List Nat) :
    ∀ c ∈ serial_print_hex_output data, c ∈ hexChars := by
  intro c hc
  rcases List.mem_flatMap.mp hc with ⟨b, _, hcb⟩
  simp [byteToHex] at hcb
  rcases hcb with h | h <;> subst h <;> exact hexDigit_mem _

theorem count_newline_hashRoutineOutput (fw : List Nat) :
    (hashRoutineOutput fw).count '\n' = 1 := by
  unfold hashRoutineOutput
  rw [List.count_append, List.count_append]
  have h1 : ("FIRMWARE_HASH:".data).count '\n' = 0 := by decide
  have h2 : (serial_print_hex_output (sha256_hash fw)).count '\n' = 0 := by
    rw [List.count_eq_zero]
    intro hc
    exact absurd (mem_serial_print_hex_mem_hexChars _ _ hc) (by decide)
  have h3 : ("\n".data).count '\n' = 1 := by decide
  rw [h1, h2, h3]

/-- **C5**: the Verification Hasher's serial trace is exactly the marker
`FIRMWARE_HASH:` followed by the hex rendering of the 32-byte SHA-256 digest
of the firmware image — 64 characters, all lowercase hex digits — and a
single newline; the trace contains exactly one newline, i.e. exactly one
line, and nothing else is emitted (the routine runs once at boot, before any
playback). SHA-256 and the hex serial primitive are modelled from the spec
(their bodies are not under `src/`). -/
theorem hash_routine_output_format (fw : List Nat) :
    hashRoutineOutput fw
      = "FIRMWARE_HASH:".data ++ serial_print_hex_output (sha256_hash fw) ++ "\n".data
    ∧ (serial_print_hex_output (sha256_hash fw)).length = 64
    ∧ (∀ c ∈ serial_print_hex_output (sha256_hash fw), c ∈ hexChars)
    ∧ (sha256_hash fw).length = 32
    ∧ (∀ b ∈ sha256_hash fw, b < 256)
    ∧ (hashRoutineOutput fw).count '\n' = 1 := by
  refine ⟨rfl, ?_, mem_serial_print_hex_mem_hexChars _, sha256_hash_length fw,
    sha256_hash_bytes_lt fw, count_newline_hashRoutineOutput fw⟩
  rw [length_serial_print_hex, sha256_hash_length]

theorem tryEmit_attempts_le (ready : Nat → Bool) (made budget : Nat) :
    (tryEmit ready made budget).2 ≤ made + budget := by
  induction budget generalizing made with
  | zero => simp [tryEmit]
  | succ n ih =>
      simp only [tryEmit]
      by_cases h : ready made
      · simp [h]
      · simp [h]
        have := ih (made + 1)
        omega

/-- **C6**: whatever the serial channel's readiness behaviour, the hasher's
boot routine makes at most `RETRY_LIMIT` emission attempts and then proceeds,
so the device always reaches PLAYBACK — a non-functioning diagnostic channel
cannot block it indefinitely. (The retry policy is modelled from the spec;
no serial implementation is under `src/`.) -/
theorem hasher_boot_reaches_playback (ready : Nat → Bool) :
    (hasherBoot ready).reachedPlayback = true
    ∧ (hasherBoot ready).attempts ≤ RETRY_LIMIT := by
  refine ⟨rfl, ?_⟩
  have h := tryEmit_attempts_le ready 0 RETRY_LIMIT
  simpa [hasherBoot] using h

/-- **C4**: the Frame Table Emitter rejects exactly the Patterns that are
empty or contain a frame whose pixel count differs from `LED_COUNT`; a
rejected Pattern yields no data section at all (`none`), while every other
Pattern yields the full tables — one duration entry and one
`LED_COUNT * 3`-byte pixel row per frame. -/
theorem frame_table_emitter_validation (p : Pattern) :
    (emitFrameTable p = none
      ↔ (p.frames = [] ∨ ∃ f ∈ p.frames, f.pixels.length ≠ p.ledCount))
    ∧ ∀ pd, emitFrameTable p = some pd →
        pd.frames.length = p.frames.length
        ∧ pd.frameDurations.length = p.frames.length
        ∧ ∀ row ∈ pd.frames, row.length = p.ledCount * 3 :=
  ⟨emitFrameTable_eq_none_iff p, fun pd h => (emitFrameTable_some_shape p pd h).2⟩

end LedFirmware
